import Mathlib

/-!
Verification of the node-coordinator state machine of a clustered
time-series database (`server.go`).  The Go source is shallowly embedded:

* Go maps become association lists (`List (K × V)`) with Go-style
  lookup/assign/delete (`mfind`, `minsert`, `merase`);
* `time.Time` and `time.Duration` become `Int` (nanoseconds); Go's
  `Time.Truncate` becomes `timeTruncate`;
* the external transactional metastore (`s.meta.mustUpdate`) is modelled
  by passing its outcome in: generated sequence ids are parameters and a
  `persistErr : Option GoErr` parameter is the error the update returns
  (per the spec, `update` is atomic on the store itself; in-memory heap
  mutations made by the Go transaction closure are not rolled back);
* broker publishes are modelled by their resulting error where a handler
  consults them;
* fallible Go functions returning `error` become functions returning
  `Option GoErr` (`none` = nil error) alongside the updated state.

Handler definitions keep the names and the control flow of the source.
-/

set_option autoImplicit false

namespace Influx

/-! ### Go map model: association lists -/

/-- Go map lookup `m[k]`: first binding of the key, if any. -/
def mfind {K V : Type} [DecidableEq K] : List (K × V) → K → Option V
  | [], _ => none
  | (k2, v) :: rest, k => if k2 = k then some v else mfind rest k

/-- Go map assignment `m[k] = v`: replace the binding in place, else append. -/
def minsert {K V : Type} [DecidableEq K] : List (K × V) → K → V → List (K × V)
  | [], k, v => [(k, v)]
  | (k2, v2) :: rest, k, v =>
    if k2 = k then (k, v) :: rest else (k2, v2) :: minsert rest k v

/-- Go map deletion `delete(m, k)`. -/
def merase {K V : Type} [DecidableEq K] (m : List (K × V)) (k : K) : List (K × V) :=
  m.filter (fun kv => kv.1 ≠ k)

/-- Values of a Go map (`for _, v := range m`). -/
def mvalues {K V : Type} (m : List (K × V)) : List V :=
  m.map (fun kv => kv.2)

/-! ### Data model (§3 of the spec, types from `server.go`) -/

/-- Error values of the coordinator (`errors.go` constants and the
`fmt.Errorf` sites used by the embedded handlers). -/
inductive GoErr
  | dataNodeURLRequired
  | dataNodeExists
  | dataNodeNotFound
  | databaseExists
  | databaseNotFound
  | retentionPolicyExists
  | retentionPolicyNotFound
  | retentionPolicyNameRequired
  | defaultRetentionPolicyNotFound
  | usernameRequired
  | userExists
  | userNotFound
  | invalidGrantRevoke
  | fieldTypeConflict
  | fieldOverflow
  | measurementNotFound
  | seriesNotFound
  | shardNotFound
  | notExecuted
  | fieldTypeMismatch (field : String)
  | storage (msg : String)
deriving DecidableEq

/-- Data types of field values (`influxql.DataType`). -/
inductive DataType
  | dtFloat
  | dtInt
  | dtBoolean
  | dtString
deriving DecidableEq

/-- Dynamic field values carried by a written point.  The float payload is
kept abstract as an `Int` mantissa: only the inferred type matters to the
embedded handlers. -/
inductive FieldValue
  | fvFloat (mantissa : Int)
  | fvInt (x : Int)
  | fvBoolean (b : Bool)
  | fvString (s : String)
deriving DecidableEq

/-- Modelled from the spec: `influxql.InspectDataType` infers the catalog
type of a dynamic value (the `influxql` package is outside `src/`). -/
def InspectDataType : FieldValue → DataType
  | .fvFloat _ => .dtFloat
  | .fvInt _ => .dtInt
  | .fvBoolean _ => .dtBoolean
  | .fvString _ => .dtString

/-- Privileges (`influxql.Privilege`). -/
inductive Privilege
  | noPrivileges
  | readPrivilege
  | writePrivilege
  | allPrivileges
deriving DecidableEq

/-- A data node (`DataNode`); URLs are kept as strings. -/
structure DataNode where
  id : Nat
  url : String
deriving DecidableEq

/-- A measurement field (`Field`). -/
structure Field where
  id : Nat
  name : String
  type : DataType
deriving DecidableEq

/-- A series (`Series`): a measurement tag set with a stable id. -/
structure Series where
  id : Nat
  tags : List (String × String)
deriving DecidableEq

/-- A measurement (`Measurement`): named, with its fields and series. -/
structure Measurement where
  name : String
  fields : List Field
  series : List Series
deriving DecidableEq

/-- A shard (`Shard`).  Modelled from the spec: the external shard store is
a durable map keyed by `(seriesID, unixNano)`. -/
structure Shard where
  id : Nat
  dataNodeIDs : List Nat
  store : List ((Nat × Int) × List Nat)
deriving DecidableEq

/-- A shard group (`ShardGroup`): a `[startTime, endTime)` window of shards. -/
structure ShardGroup where
  id : Nat
  startTime : Int
  endTime : Int
  shards : List Shard
deriving DecidableEq

/-- A retention policy (`RetentionPolicy`). -/
structure RetentionPolicy where
  name : String
  duration : Int
  replicaN : Nat
  shardGroups : List ShardGroup
deriving DecidableEq

/-- A database (`database`), keyed maps for policies and measurements. -/
structure Database where
  name : String
  defaultRetentionPolicy : String
  policies : List (String × RetentionPolicy)
  measurements : List (String × Measurement)
deriving DecidableEq

/-- A user account (`User`). -/
structure User where
  name : String
  hash : String
  privileges : List (String × Privilege)
  admin : Bool
deriving DecidableEq

/-- The coordinator state (`Server`): the fields the embedded handlers
touch.  `shardsBySeriesID` keeps shard ids (the Go slice holds pointers). -/
structure Server where
  id : Nat
  index : Nat
  errors : List (Nat × GoErr)
  dataNodes : List (Nat × DataNode)
  databases : List (String × Database)
  users : List (String × User)
  shards : List (Nat × Shard)
  shardsBySeriesID : List (Nat × List Nat)
deriving DecidableEq

/-- Fresh coordinator state (`NewServer`). -/
def NewServer : Server :=
  { id := 0, index := 0, errors := [], dataNodes := [], databases := [],
    users := [], shards := [], shardsBySeriesID := [] }

/-! ### Time model

Go's `Time.Truncate(d)` rounds down to a multiple of `d` since the zero
time and returns `t` unchanged for `d <= 0`; times are `Int` nanoseconds. -/

/-- Rounding a timestamp down to a multiple of the duration
(`c.Timestamp.Truncate(rp.Duration)`). -/
def timeTruncate (t d : Int) : Int :=
  if d ≤ 0 then t else t - t % d

/-! ### Shard-group helpers

Modelled from the spec: `shardGroupByTimestamp`, `shardGroupByID` and
`removeShardGroupByID` live in `database.go`, outside `src/`; per §4.3 a
group owns the timestamps of its `[startTime, endTime)` window. -/

/-- Window membership of a timestamp (spec §3: `[start,end)` windows). -/
def ShardGroup.containsTimestamp (g : ShardGroup) (t : Int) : Bool :=
  decide (g.startTime ≤ t ∧ t < g.endTime)

/-- Modelled from the spec: the group of the policy owning a timestamp. -/
def RetentionPolicy.shardGroupByTimestamp (rp : RetentionPolicy) (t : Int) :
    Option ShardGroup :=
  rp.shardGroups.find? (fun g => g.containsTimestamp t)

/-- Modelled from the spec: group lookup by id. -/
def RetentionPolicy.shardGroupByID (rp : RetentionPolicy) (id : Nat) :
    Option ShardGroup :=
  rp.shardGroups.find? (fun g => g.id = id)

/-- Modelled from the spec: removal of a group by id. -/
def RetentionPolicy.removeShardGroupByID (rp : RetentionPolicy) (id : Nat) :
    RetentionPolicy :=
  { rp with shardGroups := rp.shardGroups.filter (fun g => g.id ≠ id) }

/-- Membership test `sh.HasDataNodeID(id)`. -/
def Shard.HasDataNodeID (sh : Shard) (id : Nat) : Bool :=
  sh.dataNodeIDs.contains id

/-! ### apply handlers: data nodes and databases -/

/-- Payload of a create-data-node command. -/
structure CreateDataNodeCommand where
  url : String
deriving DecidableEq

/-- Payload of a create-database command. -/
structure CreateDatabaseCommand where
  name : String
deriving DecidableEq

/-- Handler `applyCreateDataNode`.  The metastore transaction is modelled
by `nextID` (the id `tx.nextDataNodeID()` hands out) and `persistErr` (the
error `s.meta.mustUpdate` returns).  As in the source, the node is stored
into `s.dataNodes` after the persist step, whatever its outcome. -/
def applyCreateDataNode (st : Server) (c : CreateDataNodeCommand)
    (nextID : Nat) (persistErr : Option GoErr) : Server × Option GoErr :=
  if c.url = "" then (st, some .dataNodeURLRequired)
  else if (mvalues st.dataNodes).any (fun n => n.url = c.url) then
    (st, some .dataNodeExists)
  else
    let n : DataNode := { id := nextID, url := c.url }
    ({ st with dataNodes := minsert st.dataNodes n.id n }, persistErr)

/-- Fresh database entry (`newDatabase`, name set by the handler). -/
def newDatabase (name : String) : Database :=
  { name := name, defaultRetentionPolicy := "", policies := [], measurements := [] }

/-- Handler `applyCreateDatabase`.  As in the source, the database is
stored into `s.databases` after the persist step, whatever its outcome. -/
def applyCreateDatabase (st : Server) (c : CreateDatabaseCommand)
    (persistErr : Option GoErr) : Server × Option GoErr :=
  if (mfind st.databases c.name).isSome then (st, some .databaseExists)
  else
    ({ st with databases := minsert st.databases c.name (newDatabase c.name) },
      persistErr)

/-- Claim C1 as stated: when the metastore update inside the handler
returns an error, the in-memory catalog is left unchanged. -/
def handlersAtomicOnPersistFailure : Prop :=
  ∀ (st : Server) (c1 : CreateDataNodeCommand) (c2 : CreateDatabaseCommand)
    (nextID : Nat) (e : GoErr),
    (applyCreateDataNode st c1 nextID (some e)).1 = st ∧
    (applyCreateDatabase st c2 (some e)).1 = st

/-! ### Sync and the processor bookkeeping (§4.2) -/

/-- Operation `Sync(index)`: blocks until the applied mark reaches the
index, then extracts the recorded error.  The poll loop is modelled by the
guard: `none` means the call is still blocked at this state. -/
def Sync (st : Server) (index : Nat) : Option (Option GoErr × Server) :=
  if st.index ≥ index then
    match mfind st.errors index with
    | some e => some (some e, { st with errors := merase st.errors index })
    | none => some (none, st)
  else none

/-- Bookkeeping the processor performs after one apply: advance the
high-water mark and record the handler error under the message index. -/
def recordApplied (st : Server) (index : Nat) (err : Option GoErr) : Server :=
  { st with
    index := index,
    errors := match err with
      | some e => minsert st.errors index e
      | none => st.errors }

/-! ### apply handlers: users and privileges -/

/-- Payload of an update-user command. -/
structure UpdateUserCommand where
  username : String
  password : String
deriving DecidableEq

/-- Handler `applyUpdateUser`.  Bcrypt hashing is external and salted, so
the hash `HashPassword` would produce for `c.password` is passed in as
`newHash`; `persistErr` is the error of the metastore update. -/
def applyUpdateUser (st : Server) (c : UpdateUserCommand)
    (newHash : String) (persistErr : Option GoErr) : Server × Option GoErr :=
  match mfind st.users c.username with
  | none => (st, some .userNotFound)
  | some u =>
    let u2 := if c.password ≠ "" then { u with hash := newHash } else u
    ({ st with users := minsert st.users c.username u2 }, persistErr)

/-- Payload of a set-privilege command. -/
structure SetPrivilegeCommand where
  privilege : Privilege
  username : String
  database : String
deriving DecidableEq

/-- Handler `applySetPrivilege`. -/
def applySetPrivilege (st : Server) (c : SetPrivilegeCommand)
    (persistErr : Option GoErr) : Server × Option GoErr :=
  if c.username = "" then (st, some .usernameRequired)
  else
    match mfind st.users c.username with
    | none => (st, some .userNotFound)
    | some u =>
      if c.database = "" ∧
          (c.privilege = .allPrivileges ∨ c.privilege = .noPrivileges) then
        let u2 := { u with admin := c.privilege = .allPrivileges }
        ({ st with users := minsert st.users c.username u2 }, persistErr)
      else if c.database ≠ "" then
        let u2 := { u with privileges := minsert u.privileges c.database c.privilege }
        ({ st with users := minsert st.users c.username u2 }, persistErr)
      else (st, some .invalidGrantRevoke)

/-! ### apply handlers: shard groups (§4.3) -/

/-- Payload of a create-shard-group-if-not-exists command. -/
structure CreateShardGroupIfNotExistsCommand where
  database : String
  policy : String
  timestamp : Int
deriving DecidableEq

/-- Fresh shard (`newShard`; the id is assigned in the transaction). -/
def newShard (id : Nat) : Shard :=
  { id := id, dataNodeIDs := [], store := [] }

/-- Nodes sorted by id ascending (`sort.Sort(dataNodes(nodes))`,
whose `Less` compares `ID`). -/
def sortDataNodes (nodes : List DataNode) : List DataNode :=
  List.insertionSort (fun a b => a.id ≤ b.id) nodes

/-- Out-of-range placeholder node (never hit for indices reduced mod the
length of a non-empty node list). -/
def dfltDataNode : DataNode := { id := 0, url := "" }

/-- Round-robin node assignment: the inner double loop of the handler's
transaction.  Each shard receives `replicaN` ids taken from consecutive
positions (mod the node count), and `nodeIndex` keeps advancing across
shards. -/
def assignShardNodes (nodes : List DataNode) (replicaN : Nat) :
    List Shard → Nat → List Shard
  | [], _ => []
  | sh :: rest, nodeIndex =>
    let ids := (List.range replicaN).map
      (fun i => (nodes.getD ((nodeIndex + i) % nodes.length) dfltDataNode).id)
    { sh with dataNodeIDs := sh.dataNodeIDs ++ ids } ::
      assignShardNodes nodes replicaN rest (nodeIndex + replicaN)

/-- Handler `applyCreateShardGroupIfNotExists`.  `msgIndex` is the broker
index `m.Index`; `nextGroupID`/`nextShardID` model the metastore sequence
generators.  When the persisting update fails the source closes the group
and returns — the in-memory group appended by the transaction closure
remains, and the shard lookup map is not updated. -/
def applyCreateShardGroupIfNotExists (st : Server)
    (c : CreateShardGroupIfNotExistsCommand) (msgIndex : Nat)
    (nextGroupID : Nat) (nextShardID : Nat) (persistErr : Option GoErr) :
    Server × Option GoErr :=
  match mfind st.databases c.database with
  | none => (st, some .databaseNotFound)
  | some db =>
    match mfind db.policies c.policy with
    | none => (st, some .retentionPolicyNotFound)
    | some rp =>
      if (rp.shardGroupByTimestamp c.timestamp).isSome then (st, none)
      else
        let startTime := timeTruncate c.timestamp rp.duration
        let endTime := startTime + rp.duration
        let nodes := sortDataNodes (mvalues st.dataNodes)
        let replicaN :=
          if rp.replicaN = 0 then 1
          else if rp.replicaN > nodes.length then nodes.length
          else rp.replicaN
        let shardN := nodes.length / replicaN
        let shards0 := (List.range shardN).map (fun k => newShard (nextShardID + k))
        let nodeIndex := msgIndex % nodes.length
        let shards := assignShardNodes nodes replicaN shards0 nodeIndex
        let g : ShardGroup :=
          { id := nextGroupID, startTime := startTime, endTime := endTime,
            shards := shards }
        let rp2 := { rp with shardGroups := rp.shardGroups ++ [g] }
        let db2 := { db with policies := minsert db.policies c.policy rp2 }
        let st2 := { st with databases := minsert st.databases c.database db2 }
        match persistErr with
        | some e => (st2, some e)
        | none =>
          (({ st2 with
              shards := shards.foldl (fun m sh => minsert m sh.id sh) st2.shards }),
            none)

/-- Payload of a delete-shard-group command. -/
structure DeleteShardGroupCommand where
  database : String
  policy : String
  id : Nat
deriving DecidableEq

/-- Handler `applyDeleteShardGroup`.  Closing and removing owned shard
files is filesystem I/O and is not part of the catalog state; as in the
source, the `s.shards` lookup map is not touched. -/
def applyDeleteShardGroup (st : Server) (c : DeleteShardGroupCommand)
    (persistErr : Option GoErr) : Server × Option GoErr :=
  match mfind st.databases c.database with
  | none => (st, some .databaseNotFound)
  | some db =>
    match mfind db.policies c.policy with
    | none => (st, some .retentionPolicyNotFound)
    | some rp =>
      match rp.shardGroupByID c.id with
      | none => (st, none)
      | some _ =>
        let rp2 := rp.removeShardGroupByID c.id
        let db2 := { db with policies := minsert db.policies c.policy rp2 }
        ({ st with databases := minsert st.databases c.database db2 }, persistErr)

/-- Retention sweep `EnforceRetentionPolicies`: the delete-shard-group
requests one pass broadcasts, as `(db.name, rp.Name, g.ID)` triples. -/
def EnforceRetentionPolicies (st : Server) (now : Int) :
    List (String × String × Nat) :=
  st.databases.flatMap (fun p =>
    p.2.policies.flatMap (fun q =>
      (q.2.shardGroups.filter (fun g => g.endTime + q.2.duration < now)).map
        (fun g => (p.2.name, q.2.name, g.id))))

/-! ### apply handlers: retention policy update -/

/-- Optional fields of an update (`RetentionPolicyUpdate`). -/
structure RetentionPolicyUpdate where
  name : Option String
  duration : Option Int
  replicaN : Option Nat
deriving DecidableEq

/-- Payload of an update-retention-policy command. -/
structure UpdateRetentionPolicyCommand where
  database : String
  name : String
  policy : RetentionPolicyUpdate
deriving DecidableEq

/-- Handler `applyUpdateRetentionPolicy`.  A rename deletes the old key
and stores the policy under the new name; duration and replication factor
are overwritten in place.  Shard groups are not touched. -/
def applyUpdateRetentionPolicy (st : Server) (c : UpdateRetentionPolicyCommand)
    (persistErr : Option GoErr) : Server × Option GoErr :=
  match mfind st.databases c.database with
  | none => (st, some .databaseNotFound)
  | some db =>
    if c.name = "" then (st, some .retentionPolicyNameRequired)
    else
      match mfind db.policies c.name with
      | none => (st, some .retentionPolicyNotFound)
      | some p =>
        let p2 : RetentionPolicy :=
          { p with
            name := (c.policy.name).getD p.name,
            duration := (c.policy.duration).getD p.duration,
            replicaN := (c.policy.replicaN).getD p.replicaN }
        let policies2 :=
          match c.policy.name with
          | some _ => minsert (merase db.policies p.name) p2.name p2
          | none => minsert db.policies c.name p2
        let db2 := { db with policies := policies2 }
        ({ st with databases := minsert st.databases c.database db2 }, persistErr)

/-! ### WriteSeries local conflict check (§4.4, C2)

The command built by `createMeasurementsIfNotExists` before broadcasting.
The Go `Tags` map is keyed by `string(marshalTags(tags))`; `marshalTags`
(outside `src/`) is modelled from the spec as a canonical key for a tag
set, represented here by the tag list itself. -/

/-- One point of a write batch (`Point`). -/
structure Point where
  name : String
  tags : List (String × String)
  timestamp : Int
  values : List (String × FieldValue)
deriving DecidableEq

/-- Per-measurement part of the command (`createMeasurementSubcommand`). -/
structure CreateMeasurementSubcommand where
  name : String
  tags : List (List (String × String) × List (String × String))
  fields : List (String × DataType)
deriving DecidableEq

/-- The command (`createMeasurementsIfNotExistsCommand`). -/
structure CreateMeasurementsIfNotExistsCommand where
  database : String
  measurements : List (String × CreateMeasurementSubcommand)
deriving DecidableEq

/-- Constructor `newCreateMeasurementsIfNotExistsCommand`. -/
def newCreateMeasurementsIfNotExistsCommand (database : String) :
    CreateMeasurementsIfNotExistsCommand :=
  { database := database, measurements := [] }

/-- Method `addMeasurementIfNotExists` (its Go error result is always nil). -/
def CreateMeasurementsIfNotExistsCommand.addMeasurementIfNotExists
    (c : CreateMeasurementsIfNotExistsCommand) (name : String) :
    CreateMeasurementsIfNotExistsCommand :=
  if (mfind c.measurements name).isSome then c
  else
    { c with measurements :=
        minsert c.measurements name { name := name, tags := [], fields := [] } }

/-- Method `addSeriesIfNotExists`. -/
def CreateMeasurementsIfNotExistsCommand.addSeriesIfNotExists
    (c : CreateMeasurementsIfNotExistsCommand) (measurement : String)
    (tags : List (String × String)) :
    CreateMeasurementsIfNotExistsCommand × Option GoErr :=
  match mfind c.measurements measurement with
  | none => (c, some .measurementNotFound)
  | some sub =>
    if (mfind sub.tags tags).isSome then (c, none)
    else
      let sub2 := { sub with tags := minsert sub.tags tags tags }
      ({ c with measurements := minsert c.measurements measurement sub2 }, none)

/-- Method `addFieldIfNotExists`: conflicts inside the command itself are
errors. -/
def CreateMeasurementsIfNotExistsCommand.addFieldIfNotExists
    (c : CreateMeasurementsIfNotExistsCommand) (measurement name : String)
    (typ : DataType) : CreateMeasurementsIfNotExistsCommand × Option GoErr :=
  match mfind c.measurements measurement with
  | none => (c, some .measurementNotFound)
  | some sub =>
    match mfind sub.fields name with
    | some t =>
      if typ ≠ t then (c, some .fieldTypeConflict) else (c, none)
    | none =>
      let sub2 := { sub with fields := minsert sub.fields name typ }
      ({ c with measurements := minsert c.measurements measurement sub2 }, none)

/-- Modelled from the spec: `Measurement.FieldByName` (in `database.go`,
outside `src/`) looks a field up by name. -/
def Measurement.FieldByName (mm : Measurement) (name : String) : Option Field :=
  mm.fields.find? (fun f => f.name = name)

/-- Modelled from the spec: `database.MeasurementAndSeries` (outside
`src/`) returns the measurement of the point's name and the series of its
tag set, either possibly absent. -/
def Database.MeasurementAndSeries (db : Database) (name : String)
    (tags : List (String × String)) : Option Measurement × Option Series :=
  match mfind db.measurements name with
  | none => (none, none)
  | some mm => (some mm, mm.series.find? (fun ss => ss.tags = tags))

/-- Inner loop over `p.Values` of the closure in
`createMeasurementsIfNotExists`.  When the measurement exists and the
field exists with another type the closure returns a conflict error; as
in the source, a new field of an existing measurement falls through
without being added to the command. -/
def collectPointFields (mmOpt : Option Measurement) (pname : String) :
    List (String × FieldValue) → CreateMeasurementsIfNotExistsCommand →
    CreateMeasurementsIfNotExistsCommand × Option GoErr
  | [], c => (c, none)
  | (k, v) :: rest, c =>
    match mmOpt with
    | some measurement =>
      match measurement.FieldByName k with
      | some f =>
        if f.type ≠ InspectDataType v then (c, some (.fieldTypeMismatch k))
        else
          match c.addFieldIfNotExists pname k (InspectDataType v) with
          | (c2, some e) => (c2, some e)
          | (c2, none) => collectPointFields mmOpt pname rest c2
      | none => collectPointFields mmOpt pname rest c
    | none =>
      match c.addFieldIfNotExists pname k (InspectDataType v) with
      | (c2, some e) => (c2, some e)
      | (c2, none) => collectPointFields mmOpt pname rest c2

/-- Per-point step of the closure: missing measurements and series are
added to the command (their error results are discarded by the source),
then the point's values are walked. -/
def collectPoint (db : Database) (p : Point)
    (c : CreateMeasurementsIfNotExistsCommand) :
    CreateMeasurementsIfNotExistsCommand × Option GoErr :=
  let ms := db.MeasurementAndSeries p.name p.tags
  let c1 := if ms.1.isNone then c.addMeasurementIfNotExists p.name else c
  let c2 := if ms.2.isNone then (c1.addSeriesIfNotExists p.name p.tags).1 else c1
  collectPointFields ms.1 p.name p.values c2

/-- The closure's loop over the batch, stopping at the first error. -/
def collectPoints (db : Database) :
    List Point → CreateMeasurementsIfNotExistsCommand →
    CreateMeasurementsIfNotExistsCommand × Option GoErr
  | [], c => (c, none)
  | p :: rest, c =>
    match collectPoint db p c with
    | (c2, some e) => (c2, some e)
    | (c2, none) => collectPoints db rest c2

/-- Function `createMeasurementsIfNotExists` (the local step 2 of
`WriteSeries`).  The closure that detects field-type conflicts is invoked
and its result DISCARDED, exactly as in the source (`func() error {...}()`
with no assignment); the command is then broadcast only when it is
non-empty.  `broadcastErr` models the error of the broadcast/sync. -/
def createMeasurementsIfNotExists (st : Server) (database : String)
    (points : List Point) (broadcastErr : Option GoErr) : Option GoErr :=
  let c0 := newCreateMeasurementsIfNotExistsCommand database
  let build : CreateMeasurementsIfNotExistsCommand × Option GoErr :=
    match mfind st.databases database with
    | none => (c0, some .databaseNotFound)
    | some db => collectPoints db points c0
  let c := build.1
  if c.measurements.length > 0 then broadcastErr else none

/-! ### write-raw-series apply (§4.4, C3) -/

/-- Size of the fixed point header `[u32 | u32 | i64]` (spec §6). -/
def pointHeaderSize : Nat := 16

/-- Big-endian byte decoding (the spec leaves the endianness to the
implementer; C3 does not depend on the choice). -/
def bytesToNat (bs : List Nat) : Nat :=
  bs.foldl (fun acc b => acc * 256 + b) 0

/-- Modelled from the spec: `unmarshalPointHeader` (outside `src/`) reads
`(seriesID, payloadLength, timestamp)` from the first 16 bytes. -/
def unmarshalPointHeader (b : List Nat) : Nat × Nat × Int :=
  (bytesToNat (b.take 4),
    bytesToNat ((b.drop 4).take 4),
    Int.ofNat (bytesToNat ((b.drop 8).take 8)))

/-- Modelled from the spec: the external shard store's
`writeSeries(seriesID, unixNano, bytes, overwrite)` writes one record of
the durable map; with overwrite it replaces an existing record. -/
def Shard.writeSeries (sh : Shard) (seriesID : Nat) (timestamp : Int)
    (b : List Nat) (overwrite : Bool) : Shard × Option GoErr :=
  if overwrite ∨ (mfind sh.store (seriesID, timestamp)).isNone then
    ({ sh with store := minsert sh.store (seriesID, timestamp) b }, none)
  else (sh, none)

/-- Helper `addShardBySeriesID`: append the shard to the reverse index
unless already present. -/
def Server.addShardBySeriesID (st : Server) (shID : Nat) (seriesID : Nat) :
    Server :=
  let cur := (mfind st.shardsBySeriesID seriesID).getD []
  if cur.contains shID then st
  else { st with shardsBySeriesID := minsert st.shardsBySeriesID seriesID (cur ++ [shID]) }

/-- The `for` loop of `applyWriteRawSeries`, run with explicit fuel
(`none` = the loop has not finished within `fuel` iterations).  As in the
source, `i` is declared, never incremented, and compared against the data
length only after each write. -/
def applyWriteRawSeriesLoop (data : List Nat) :
    Nat → Server → Shard → Nat → Option (Server × Shard × Option GoErr)
  | 0, _, _, _ => none
  | fuel + 1, st, sh, i =>
    let h := unmarshalPointHeader (data.take pointHeaderSize)
    let seriesID := h.1
    let payloadLength := h.2.1
    let timestamp := h.2.2
    let payload := (data.take payloadLength).drop pointHeaderSize
    let st2 := st.addShardBySeriesID sh.id seriesID
    match sh.writeSeries seriesID timestamp payload true with
    | (sh2, some e) => some (st2, sh2, some e)
    | (sh2, none) =>
      if i > data.length then some (st2, sh2, none)
      else applyWriteRawSeriesLoop data fuel st2 sh2 i

/-- Handler `applyWriteRawSeries`: the message topic id names the shard;
`none` means the handler has not returned within `fuel` loop iterations. -/
def applyWriteRawSeries (st : Server) (topicID : Nat) (data : List Nat)
    (fuel : Nat) : Option (Server × Option GoErr) :=
  match mfind st.shards topicID with
  | none => some (st, some .shardNotFound)
  | some sh =>
    match applyWriteRawSeriesLoop data fuel st sh 0 with
    | none => none
    | some (st2, sh2, e) =>
      some ({ st2 with shards := minsert st2.shards topicID sh2 }, e)

/-- Claim C3 as stated: on a node that knows the shard of the topic, the
handler terminates once the payload buffer is exhausted (some finite fuel
suffices). -/
def writeRawSeriesTerminates : Prop :=
  ∀ (st : Server) (topicID : Nat) (data : List Nat),
    (mfind st.shards topicID).isSome →
    ∃ (fuel : Nat) (out : Server × Option GoErr),
      applyWriteRawSeries st topicID data fuel = some out

/-! ### ExecuteQuery dispatch loop (§4.8, C7)

Statements are abstracted to what the dispatch loop observes: the outcome
of `NormalizeStatement` and, by statement kind, either the skip of the
`continue` cases (`DropSeriesStatement`, `DropContinuousQueryStatement`)
or the result their executor returns. -/

/-- Result of one statement (`Result`), reduced to its error. -/
structure QResult where
  err : Option GoErr
deriving DecidableEq

/-- Statement kind as seen by the dispatch switch. -/
inductive StmtKind
  | dropSeries
  | dropContinuousQuery
  | other (res : Option GoErr)
deriving DecidableEq

/-- An abstracted statement of a query. -/
structure Statement where
  normErr : Option GoErr
  kind : StmtKind
deriving DecidableEq

/-- The statement loop of `ExecuteQuery`: fills the result slot of each
statement, `break` leaves the remaining slots empty (`none`), `continue`
leaves the statement's own slot empty. -/
def executeQueryLoop : List Statement → List (Option QResult)
  | [] => []
  | stmt :: rest =>
    match stmt.normErr with
    | some e => some { err := some e } :: rest.map (fun _ => none)
    | none =>
      match stmt.kind with
      | .dropSeries => none :: executeQueryLoop rest
      | .dropContinuousQuery => none :: executeQueryLoop rest
      | .other res =>
        if res.isSome then
          some { err := res } :: rest.map (fun _ => none)
        else some { err := res } :: executeQueryLoop rest

/-- Function `ExecuteQuery` (authorization aside): run the loop, then fill
every empty slot with the not-executed sentinel. -/
def ExecuteQuery (stmts : List Statement) : List QResult :=
  (executeQueryLoop stmts).map (fun r => r.getD { err := some .notExecuted })

/-- Whether the loop breaks at this statement: its result carries an error
(from normalization or from its executor). -/
def isFailing (s : Statement) : Bool :=
  s.normErr.isSome ||
    (match s.kind with
     | .other (some _) => true
     | _ => false)

/-- Index of the first failing statement, if any. -/
def firstFailingIdx : List Statement → Option Nat
  | [] => none
  | s :: rest =>
    if isFailing s then some 0 else (firstFailingIdx rest).map (fun n => n + 1)

/-- Whether the statement is one of the kinds the dispatch skips. -/
def isSkipped (s : Statement) : Bool :=
  match s.kind with
  | .dropSeries => true
  | .dropContinuousQuery => true
  | .other _ => false

/-- Default statement for indexed access in theorem statements. -/
def dfltStmt : Statement := { normErr := none, kind := .other none }

/-- Claim C7 as stated: a statement's result is the not-executed sentinel
iff the statement comes after the first failing statement. -/
def notExecutedIffAfterFirstFailure : Prop :=
  ∀ (stmts : List Statement) (i : Nat), i < stmts.length →
    (((ExecuteQuery stmts).getD i { err := none }).err = some .notExecuted ↔
      ∃ j, firstFailingIdx stmts = some j ∧ j < i)

/-! ### invariants for C5 -/

/-- At most one group of the policy contains the timestamp. -/
def atMostOneGroupContains (rp : RetentionPolicy) (t : Int) : Prop :=
  (rp.shardGroups.filter (fun g => g.containsTimestamp t)).length ≤ 1

/-- Disjointness of one policy's windows, as the claim states it. -/
def policyDisjoint (rp : RetentionPolicy) : Prop :=
  ∀ t : Int, atMostOneGroupContains rp t

/-- Each group's window closes its start at `start + duration` and starts
on a truncation boundary of the policy's current duration. -/
def policyAligned (rp : RetentionPolicy) : Prop :=
  ∀ g ∈ rp.shardGroups,
    g.endTime = g.startTime + rp.duration ∧
    g.startTime = timeTruncate g.startTime rp.duration

/-- Disjointness over the whole catalog. -/
def serverDisjoint (st : Server) : Prop :=
  ∀ p ∈ st.databases, ∀ q ∈ p.2.policies, policyDisjoint q.2

/-- Alignment over the whole catalog. -/
def serverAligned (st : Server) : Prop :=
  ∀ p ∈ st.databases, ∀ q ∈ p.2.policies, policyAligned q.2

/-- Claim C5 as stated: the disjointness invariant is preserved by every
apply operation, including `applyCreateShardGroupIfNotExists` and
`applyUpdateRetentionPolicy`. -/
def disjointnessPreservedByApply : Prop :=
  ∀ st : Server, serverDisjoint st →
    (∀ (c : CreateShardGroupIfNotExistsCommand) (mi gid sid : Nat)
        (pe : Option GoErr),
      serverDisjoint (applyCreateShardGroupIfNotExists st c mi gid sid pe).1) ∧
    (∀ (c : UpdateRetentionPolicyCommand) (pe : Option GoErr),
      serverDisjoint (applyUpdateRetentionPolicy st c pe).1)

/-- No statement result carries the sentinel as its own error (handlers
never return the not-executed sentinel themselves). -/
def sentinelFree (s : Statement) : Prop :=
  s.normErr ≠ some .notExecuted ∧ s.kind ≠ .other (some .notExecuted)

/-- Default shard for indexed access in theorem statements. -/
def dfltShard : Shard := newShard 0

/-! ### Concrete scenario states used by counterexamples and witnesses -/

/-- C2 scenario: measurement `cpu` with field `v` of type int and one
series `host=a` already in the catalog. -/
def c2meas : Measurement :=
  { name := "cpu", fields := [{ id := 1, name := "v", type := .dtInt }],
    series := [{ id := 1, tags := [("host", "a")] }] }

/-- C2 scenario: the database holding `c2meas`. -/
def c2db : Database :=
  { name := "db", defaultRetentionPolicy := "rp",
    policies := [], measurements := [("cpu", c2meas)] }

/-- C2 scenario: the server. -/
def c2server : Server :=
  { NewServer with databases := [("db", c2db)] }

/-- C2 scenario: a second write of `v` with a float value. -/
def c2point : Point :=
  { name := "cpu", tags := [("host", "a")], timestamp := 0,
    values := [("v", .fvFloat 15)] }

/-- C3 scenario: the shard of topic 1. -/
def c3shard : Shard := { id := 1, dataNodeIDs := [1], store := [] }

/-- C3 scenario: a server owning the shard of topic 1. -/
def c3st : Server := { NewServer with shards := [(1, c3shard)] }

/-- C3 scenario: one well-formed 20-byte record
`[seriesID=1 | payloadLength=20 | ts=9 | 4 payload bytes]`. -/
def c3data : List Nat :=
  [0, 0, 0, 1, 0, 0, 0, 20, 0, 0, 0, 0, 0, 0, 0, 9, 7, 7, 7, 7]

/-- C4 scenario: a policy with replication factor 2 and no groups. -/
def c4rp : RetentionPolicy :=
  { name := "rp", duration := 3600, replicaN := 2, shardGroups := [] }

/-- C4 scenario: the database holding `c4rp`. -/
def c4db : Database :=
  { name := "db", defaultRetentionPolicy := "rp",
    policies := [("rp", c4rp)], measurements := [] }

/-- C4 scenario: three data nodes (map order scrambled on purpose). -/
def c4st : Server :=
  { NewServer with
    dataNodes :=
      [(2, { id := 2, url := "n2" }), (1, { id := 1, url := "n1" }),
        (3, { id := 3, url := "n3" })],
    databases := [("db", c4db)] }

/-- C5 counterexample scenario: a policy whose duration was updated from
2 to 4 after the group `[2,4)` was created with the old duration — the
group window is no longer aligned to the current duration. -/
def c5rp : RetentionPolicy :=
  { name := "rp", duration := 4, replicaN := 1,
    shardGroups := [{ id := 1, startTime := 2, endTime := 4, shards := [] }] }

/-- C5 counterexample scenario: the database holding `c5rp`. -/
def c5db : Database :=
  { name := "db", defaultRetentionPolicy := "rp",
    policies := [("rp", c5rp)], measurements := [] }

/-- C5 counterexample scenario: the server (one data node so the create
handler allocates a shard). -/
def c5st : Server :=
  { NewServer with
    dataNodes := [(1, { id := 1, url := "n1" })],
    databases := [("db", c5db)] }

/-- C5 counterexample: the state after creating a group for timestamp 1,
written out literally (the new group `[0,4)` overlaps `[2,4)`). -/
def c5rp2 : RetentionPolicy :=
  { name := "rp", duration := 4, replicaN := 1,
    shardGroups :=
      [{ id := 1, startTime := 2, endTime := 4, shards := [] },
        { id := 9, startTime := 0, endTime := 4,
          shards := [{ id := 20, dataNodeIDs := [1], store := [] }] }] }

/-- C5 counterexample: the database of the post-create state. -/
def c5db2 : Database :=
  { name := "db", defaultRetentionPolicy := "rp",
    policies := [("rp", c5rp2)], measurements := [] }

/-- C5 witness scenario: a database with an aligned, group-free policy. -/
def c5wrp : RetentionPolicy :=
  { name := "rp", duration := 4, replicaN := 1, shardGroups := [] }

/-- C5 witness scenario: the server. -/
def c5wst : Server :=
  { NewServer with
    dataNodes := [(1, { id := 1, url := "n1" })],
    databases :=
      [("db", { name := "db", defaultRetentionPolicy := "rp",
                policies := [("rp", c5wrp)], measurements := [] })] }

/-- C6 scenario: applied mark 5, an error recorded under index 3. -/
def c6st : Server :=
  { NewServer with index := 5, errors := [(3, .userNotFound)] }

/-- C8 and C10 scenario: a single non-admin user. -/
def c8user : User :=
  { name := "bob", hash := "h0", privileges := [], admin := false }

/-- C8 and C10 scenario: the server holding `c8user`. -/
def c8st : Server := { NewServer with users := [("bob", c8user)] }

/-- C9 scenario: one database, one policy, one aged group and one young
group. -/
def c9rp : RetentionPolicy :=
  { name := "rp", duration := 60, replicaN := 1,
    shardGroups :=
      [{ id := 1, startTime := 0, endTime := 60, shards := [] },
        { id := 2, startTime := 60, endTime := 120, shards := [] }] }

/-- C9 scenario: the database holding `c9rp`. -/
def c9db : Database :=
  { name := "db", defaultRetentionPolicy := "rp",
    policies := [("rp", c9rp)], measurements := [] }

/-- C9 scenario: the server. -/
def c9st : Server := { NewServer with databases := [("db", c9db)] }

/-- The shard group built by `applyCreateShardGroupIfNotExists` on its
create path, named for use in theorem statements (the same computation,
with the same code-shaped replica count). -/
def createdShardGroup (st : Server) (c : CreateShardGroupIfNotExistsCommand)
    (msgIndex gid sid : Nat) (rp : RetentionPolicy) : ShardGroup :=
  let nodes := sortDataNodes (mvalues st.dataNodes)
  let replicaN :=
    if rp.replicaN = 0 then 1
    else if rp.replicaN > nodes.length then nodes.length
    else rp.replicaN
  let shardN := nodes.length / replicaN
  let shards0 := (List.range shardN).map (fun k => newShard (sid + k))
  { id := gid,
    startTime := timeTruncate c.timestamp rp.duration,
    endTime := timeTruncate c.timestamp rp.duration + rp.duration,
    shards := assignShardNodes nodes replicaN shards0 (msgIndex % nodes.length) }

/-- C7 witness scenario: a skipped statement, a failing statement, an
unreached statement. -/
def c7stmts : List Statement :=
  [{ normErr := none, kind := .dropSeries },
    { normErr := none, kind := .other (some .databaseNotFound) },
    { normErr := none, kind := .other none }]

/-! ## Theorems

First the generic facts about the Go-map model, then the claims. -/

theorem mfind_minsert_self {K V : Type} [DecidableEq K]
    (m : List (K × V)) (k : K) (v : V) : mfind (minsert m k v) k = some v := by
  induction m with
  | nil => simp [minsert, mfind]
  | cons kv rest ih =>
    obtain ⟨k2, v2⟩ := kv
    by_cases h : k2 = k <;> simp [minsert, mfind, h, ih]

theorem minsert_self_of_mfind {K V : Type} [DecidableEq K]
    (m : List (K × V)) (k : K) (v : V) (h : mfind m k = some v) :
    minsert m k v = m := by
  induction m with
  | nil => simp [mfind] at h
  | cons kv rest ih =>
    obtain ⟨k2, v2⟩ := kv
    by_cases h2 : k2 = k
    · subst h2
      simp [mfind] at h
      simp [minsert, h]
    · simp [mfind, h2] at h
      simp [minsert, h2, ih h]

theorem mfind_merase_self {K V : Type} [DecidableEq K]
    (m : List (K × V)) (k : K) : mfind (merase m k) k = none := by
  induction m with
  | nil => simp [merase, mfind]
  | cons kv rest ih =>
    obtain ⟨k2, v2⟩ := kv
    by_cases h : k2 = k
    · simpa [merase, List.filter, h] using ih
    · simpa [merase, List.filter, h, mfind] using ih

theorem mem_minsert {K V : Type} [DecidableEq K]
    {m : List (K × V)} {k : K} {v : V} {p : K × V} (h : p ∈ minsert m k v) :
    p = (k, v) ∨ p ∈ m := by
  induction m with
  | nil => simpa [minsert] using h
  | cons kv rest ih =>
    obtain ⟨k2, v2⟩ := kv
    by_cases h2 : k2 = k
    · simp [minsert, h2] at h
      rcases h with h | h
      · exact Or.inl (by simp [h])
      · exact Or.inr (by simp [h])
    · simp [minsert, h2] at h
      rcases h with h | h
      · exact Or.inr (by simp [h])
      · rcases ih h with h3 | h3
        · exact Or.inl h3
        · exact Or.inr (by simp [h3])

theorem mfind_mem {K V : Type} [DecidableEq K]
    {m : List (K × V)} {k : K} {v : V} (h : mfind m k = some v) : (k, v) ∈ m := by
  induction m with
  | nil => simp [mfind] at h
  | cons kv rest ih =>
    obtain ⟨k2, v2⟩ := kv
    by_cases h2 : k2 = k
    · subst h2
      simp [mfind] at h
      simp [h]
    · simp [mfind, h2] at h
      exact List.mem_cons_of_mem _ (ih h)

theorem mem_merase {K V : Type} [DecidableEq K]
    {m : List (K × V)} {k : K} {p : K × V} (h : p ∈ merase m k) : p ∈ m :=
  (List.mem_filter.mp h).1

/-! ### C1 -/

/-- Claim C1, refuted: with a failing metastore update, `applyCreateDataNode`
still adds the node to the in-memory `dataNodes` map (and
`applyCreateDatabase` still adds the database), so the handlers are not
atomic with respect to persistence failure. -/
theorem C1_counterexample : ¬ handlersAtomicOnPersistFailure := by
  intro h
  have h2 := (h NewServer { url := "u" } { name := "db0" } 1 (.storage "x")).1
  exact absurd h2 (by decide)

/-- Claim C1 as amended: on a valid command whose metastore update fails,
the handler returns the error, but the new entity has nevertheless been
inserted into the in-memory catalog map. -/
theorem C1_persist_failure_returns_error_but_inserts (st : Server)
    (c1 : CreateDataNodeCommand) (c2 : CreateDatabaseCommand)
    (nextID : Nat) (e : GoErr)
    (h1 : c1.url ≠ "")
    (h2 : (mvalues st.dataNodes).any (fun n => n.url = c1.url) = false)
    (h3 : mfind st.databases c2.name = none) :
    applyCreateDataNode st c1 nextID (some e) =
      ({ st with
          dataNodes := minsert st.dataNodes nextID (DataNode.mk nextID c1.url) },
        some e) ∧
    applyCreateDatabase st c2 (some e) =
      ({ st with
          databases := minsert st.databases c2.name (newDatabase c2.name) },
        some e) := by
  constructor
  · simp [applyCreateDataNode, h1, h2]
  · simp [applyCreateDatabase, h3]

/-- Witness for the amended C1 at a concrete server and commands. -/
theorem C1_witness :
    applyCreateDataNode NewServer { url := "u" } 1 (some (.storage "x")) =
      ({ NewServer with
          dataNodes := minsert NewServer.dataNodes 1 (DataNode.mk 1 "u") },
        some (.storage "x")) ∧
    applyCreateDatabase NewServer { name := "db0" } (some (.storage "x")) =
      ({ NewServer with
          databases := minsert NewServer.databases "db0" (newDatabase "db0") },
        some (.storage "x")) :=
  C1_persist_failure_returns_error_but_inserts NewServer { url := "u" }
    { name := "db0" } 1 (.storage "x") (by decide) (by decide) (by decide)

/-! ### C2 -/

/-- Claim C2 (code bug): on a batch whose only point writes the existing
int field `v` with a float value, the conflict is detected inside the
closure of `createMeasurementsIfNotExists` — the closure's result is
`some (fieldTypeMismatch "v")` — but the source discards that result, the
built command stays empty, nothing is broadcast, and the function returns
nil, so `WriteSeries` proceeds instead of failing with a conflict error. -/
theorem C2_conflict_error_computed_then_discarded :
    (∀ broadcastErr : Option GoErr,
      createMeasurementsIfNotExists c2server "db" [c2point] broadcastErr = none) ∧
    (collectPoints c2db [c2point]
        (newCreateMeasurementsIfNotExistsCommand "db")).2 =
      some (.fieldTypeMismatch "v") ∧
    (c2meas.FieldByName "v").map Field.type = some .dtInt ∧
    InspectDataType (.fvFloat 15) = .dtFloat := by
  refine ⟨fun be => rfl, by decide, by decide, by decide⟩

/-! ### C3 -/

/-- The loop body of `applyWriteRawSeries` never takes the break: the
index `i` stays 0 and `0 > len(data)` is false, so each iteration only
consumes fuel (the model's shard-store write always succeeds). -/
theorem applyWriteRawSeriesLoop_none (data : List Nat) :
    ∀ (fuel : Nat) (st : Server) (sh : Shard),
      applyWriteRawSeriesLoop data fuel st sh 0 = none := by
  intro fuel
  induction fuel with
  | zero => intro st sh; rfl
  | succ n ih =>
    intro st sh
    simp only [applyWriteRawSeriesLoop, Shard.writeSeries, true_or, if_pos]
    simpa using ih _ _

/-- Claim C3 (code bug): `applyWriteRawSeries` does not terminate once the
payload buffer is exhausted — on a well-formed single-record payload for a
known shard it fails to return within any amount of fuel, because the loop
index is never advanced. -/
theorem C3_write_raw_series_never_terminates :
    (¬ writeRawSeriesTerminates) ∧
    (∀ fuel : Nat, applyWriteRawSeries c3st 1 c3data fuel = none) ∧
    (mfind c3st.shards 1).isSome = true ∧ c3data.length = 20 := by
  have hloop : ∀ fuel : Nat, applyWriteRawSeries c3st 1 c3data fuel = none := by
    intro fuel
    simp only [applyWriteRawSeries, show mfind c3st.shards 1 = some c3shard from rfl,
      applyWriteRawSeriesLoop_none]
  refine ⟨?_, hloop, by decide, by decide⟩
  intro hterm
  obtain ⟨fuel, out, hout⟩ := hterm c3st 1 c3data (by decide)
  rw [hloop fuel] at hout
  cases hout

/-! ### C6 -/

/-- Claim C6: a `Sync(i)` call is blocked while the applied mark is below
`i`; once the mark has reached `i` it returns the error recorded under `i`
and deletes the entry, so a repeated `Sync(i)` on the resulting state
returns success; and after the processor records an error under `i`,
`Sync(i)` returns exactly that error. -/
theorem C6_sync_returns_error_exactly_once (st : Server) (i : Nat)
    (h : i ≤ st.index) :
    (∀ st4 : Server, st4.index < i → Sync st4 i = none) ∧
    (∃ st2 : Server,
      Sync st i = some (mfind st.errors i, st2) ∧
      st2.index = st.index ∧
      Sync st2 i = some (none, st2) ∧
      (∀ e : GoErr, ∃ st3 : Server,
        Sync (recordApplied st i (some e)) i = some (some e, st3))) := by
  constructor
  · intro st4 h4
    simp [Sync, Nat.not_le.mpr h4]
  · have hrecord : ∀ e : GoErr, ∃ st3 : Server,
        Sync (recordApplied st i (some e)) i = some (some e, st3) := by
      intro e
      refine ⟨{ recordApplied st i (some e) with
        errors := merase (minsert st.errors i e) i }, ?_⟩
      simp [Sync, recordApplied, mfind_minsert_self]
    cases herr : mfind st.errors i with
    | some e0 =>
      refine ⟨{ st with errors := merase st.errors i }, ?_, rfl, ?_, hrecord⟩
      · simp [Sync, h, herr]
      · simp [Sync, h, mfind_merase_self]
    | none =>
      refine ⟨st, ?_, rfl, ?_, hrecord⟩
      · simp [Sync, h, herr]
      · simp [Sync, h, herr]

/-- Witness for C6: applied mark 5, an error recorded under index 3. -/
theorem C6_witness :
    (∀ st4 : Server, st4.index < 3 → Sync st4 3 = none) ∧
    (∃ st2 : Server,
      Sync c6st 3 = some (mfind c6st.errors 3, st2) ∧
      st2.index = c6st.index ∧
      Sync st2 3 = some (none, st2) ∧
      (∀ e : GoErr, ∃ st3 : Server,
        Sync (recordApplied c6st 3 (some e)) 3 = some (some e, st3))) :=
  C6_sync_returns_error_exactly_once c6st 3 (by decide)

/-! ### C8 -/

/-- Claim C8: for an applied set-privilege command naming an existing
user, an empty database toggles the admin flag (true for ALL, false for
NONE, an invalid-grant error for READ or WRITE without touching the
state), and a non-empty database sets the user's per-database privilege. -/
theorem C8_set_privilege_semantics (st : Server) (c : SetPrivilegeCommand)
    (u : User) (pe : Option GoErr)
    (hname : c.username ≠ "") (hu : mfind st.users c.username = some u) :
    (c.database = "" →
      (c.privilege = .allPrivileges →
        applySetPrivilege st c pe =
          ({ st with
              users := minsert st.users c.username ({ u with admin := true }) },
            pe)) ∧
      (c.privilege = .noPrivileges →
        applySetPrivilege st c pe =
          ({ st with
              users := minsert st.users c.username ({ u with admin := false }) },
            pe)) ∧
      ((c.privilege = .readPrivilege ∨ c.privilege = .writePrivilege) →
        applySetPrivilege st c pe = (st, some .invalidGrantRevoke))) ∧
    (c.database ≠ "" →
      applySetPrivilege st c pe =
        ({ st with
            users := minsert st.users c.username
              ({ u with privileges := minsert u.privileges c.database c.privilege }) },
          pe)) := by
  constructor
  · intro hdb
    refine ⟨?_, ?_, ?_⟩
    · intro hpriv
      simp [applySetPrivilege, hname, hu, hdb, hpriv]
    · intro hpriv
      simp [applySetPrivilege, hname, hu, hdb, hpriv]
    · intro hpriv
      rcases hpriv with hpriv | hpriv <;>
        simp [applySetPrivilege, hname, hu, hdb, hpriv]
  · intro hdb
    have hguard : ¬ (c.database = "" ∧
        (c.privilege = .allPrivileges ∨ c.privilege = .noPrivileges)) := by
      intro hcontra
      exact hdb hcontra.1
    simp [applySetPrivilege, hname, hu, hguard, hdb]

/-- Witness for C8 at a concrete user, covering an admin grant, an
invalid grant and a per-database grant. -/
theorem C8_witness :
    (applySetPrivilege c8st
        { privilege := .allPrivileges, username := "bob", database := "" } none =
      ({ c8st with
          users := minsert c8st.users "bob" ({ c8user with admin := true }) },
        none)) ∧
    (applySetPrivilege c8st
        { privilege := .readPrivilege, username := "bob", database := "" } none =
      (c8st, some .invalidGrantRevoke)) ∧
    (applySetPrivilege c8st
        { privilege := .readPrivilege, username := "bob", database := "db" } none =
      ({ c8st with
          users := minsert c8st.users "bob"
            ({ c8user with
                privileges := minsert c8user.privileges "db" .readPrivilege }) },
        none)) := by
  have h1 := C8_set_privilege_semantics c8st
    { privilege := .allPrivileges, username := "bob", database := "" } c8user none
    (by decide) (by decide)
  have h2 := C8_set_privilege_semantics c8st
    { privilege := .readPrivilege, username := "bob", database := "" } c8user none
    (by decide) (by decide)
  have h3 := C8_set_privilege_semantics c8st
    { privilege := .readPrivilege, username := "bob", database := "db" } c8user none
    (by decide) (by decide)
  exact ⟨(h1.1 rfl).1 rfl, (h2.1 rfl).2.2 (Or.inl rfl), h3.2 (by decide)⟩

/-! ### C10 -/

/-- Claim C10: an update-user command for an existing user leaves the
stored password hash (and every other field) unchanged when the password
is empty, and replaces exactly the hash when it is non-empty. -/
theorem C10_update_user_touches_only_hash (st : Server) (c : UpdateUserCommand)
    (u : User) (newHash : String) (pe : Option GoErr)
    (hu : mfind st.users c.username = some u) :
    (c.password = "" → applyUpdateUser st c newHash pe = (st, pe)) ∧
    (c.password ≠ "" →
      applyUpdateUser st c newHash pe =
        ({ st with
            users := minsert st.users c.username ({ u with hash := newHash }) },
          pe)) := by
  constructor
  · intro hpw
    simp only [applyUpdateUser, hu, hpw, ne_eq, not_true_eq_false, if_neg,
      ite_false]
    rw [minsert_self_of_mfind st.users c.username u hu]
  · intro hpw
    simp [applyUpdateUser, hu, hpw]

/-- Witness for C10 at a concrete user: empty password leaves the state
unchanged, a new password replaces only the hash. -/
theorem C10_witness :
    (applyUpdateUser c8st { username := "bob", password := "" } "h1" none =
      (c8st, none)) ∧
    (applyUpdateUser c8st { username := "bob", password := "pw" } "h1" none =
      ({ c8st with
          users := minsert c8st.users "bob" ({ c8user with hash := "h1" }) },
        none)) := by
  have h := C10_update_user_touches_only_hash c8st
    { username := "bob", password := "" } c8user "h1" none (by decide)
  have h2 := C10_update_user_touches_only_hash c8st
    { username := "bob", password := "pw" } c8user "h1" none (by decide)
  exact ⟨h.1 rfl, h2.2 (by decide)⟩

/-! ### C9 -/

/-- Claim C9: a retention sweep broadcasts a delete-shard-group for
exactly the groups with `endTime + duration < now` (over every database
and policy), and applying a delete-shard-group whose group no longer
exists returns success and leaves the state unchanged. -/
theorem C9_retention_sweep_exact_and_delete_idempotent (st : Server)
    (now : Int) (c : DeleteShardGroupCommand) (pe : Option GoErr)
    (db : Database) (rp : RetentionPolicy)
    (h1 : mfind st.databases c.database = some db)
    (h2 : mfind db.policies c.policy = some rp)
    (h3 : rp.shardGroupByID c.id = none) :
    (∀ x : String × String × Nat,
      x ∈ EnforceRetentionPolicies st now ↔
        ∃ p ∈ st.databases, ∃ q ∈ p.2.policies, ∃ g ∈ q.2.shardGroups,
          g.endTime + q.2.duration < now ∧ x = (p.2.name, q.2.name, g.id)) ∧
    applyDeleteShardGroup st c pe = (st, none) := by
  constructor
  · intro x
    simp only [EnforceRetentionPolicies, List.mem_flatMap, List.mem_map,
      List.mem_filter, decide_eq_true_eq]
    constructor
    · rintro ⟨p, hp, q, hq, g, ⟨hg, hlt⟩, hx⟩
      exact ⟨p, hp, q, hq, g, hg, hlt, hx.symm⟩
    · rintro ⟨p, hp, q, hq, g, hg, hlt, hx⟩
      exact ⟨p, hp, q, hq, g, ⟨hg, hlt⟩, hx.symm⟩
  · simp [applyDeleteShardGroup, h1, h2, h3]

/-- Witness for C9: the aged group `[0,60)` (with duration 60 and
`now = 121`) is swept, the young one is not; deleting the absent group id
7 is a no-op returning success. -/
theorem C9_witness :
    (∀ x : String × String × Nat,
      x ∈ EnforceRetentionPolicies c9st 121 ↔
        ∃ p ∈ c9st.databases, ∃ q ∈ p.2.policies, ∃ g ∈ q.2.shardGroups,
          g.endTime + q.2.duration < 121 ∧ x = (p.2.name, q.2.name, g.id)) ∧
    applyDeleteShardGroup c9st
      { database := "db", policy := "rp", id := 7 } none = (c9st, none) :=
  C9_retention_sweep_exact_and_delete_idempotent c9st 121
    { database := "db", policy := "rp", id := 7 } none c9db c9rp
    (by decide) (by decide) (by decide)

/-! ### C7 -/

/-- Claim C7, refuted: in a two-statement query whose first statement is a
DropSeries statement (skipped by the dispatch switch) and whose second
succeeds, no statement fails, yet the first result is the not-executed
sentinel. -/
theorem C7_counterexample : ¬ notExecutedIffAfterFirstFailure := by
  intro h
  have h2 := (h [{ normErr := none, kind := .dropSeries },
    { normErr := none, kind := .other none }] 0 (by decide)).mp (by decide)
  obtain ⟨j, hj, _⟩ := h2
  rw [show firstFailingIdx [{ normErr := none, kind := .dropSeries },
    { normErr := none, kind := .other none }] = none from rfl] at hj
  cases hj

theorem exists_succ_shift (o : Option Nat) (k : Nat) :
    (∃ j, o.map (fun n => n + 1) = some j ∧ j < k + 1) ↔
      (∃ j, o = some j ∧ j < k) := by
  cases o with
  | none => simp
  | some a => simp

/-- Claim C7 as amended: a statement's result is the not-executed sentinel
iff the statement comes after the first failing statement or it is one of
the skipped kinds (DropSeries, DropContinuousQuery) with successful
normalization; provided no statement's own error is the sentinel value. -/
theorem C7_not_executed_characterization :
    ∀ (stmts : List Statement), (∀ s ∈ stmts, sentinelFree s) →
      ∀ i : Nat, i < stmts.length →
        (((ExecuteQuery stmts).getD i { err := none }).err = some .notExecuted ↔
          ((∃ j, firstFailingIdx stmts = some j ∧ j < i) ∨
            (isSkipped (stmts.getD i dfltStmt) = true ∧
              (stmts.getD i dfltStmt).normErr = none))) := by
  intro stmts
  induction stmts with
  | nil => intro _ i hi; simp at hi
  | cons s rest ih =>
    intro hfree i hi
    have hfs := hfree s (List.mem_cons_self s rest)
    have hfrest : ∀ t ∈ rest, sentinelFree t :=
      fun t ht => hfree t (List.mem_cons_of_mem s ht)
    cases hn : s.normErr with
    | some e =>
      have hfail : isFailing s = true := by simp [isFailing, hn]
      have hne : e ≠ .notExecuted := by
        intro hcontra
        exact hfs.1 (by rw [hn, hcontra])
      have hshape : ExecuteQuery (s :: rest) =
          { err := some e } ::
            rest.map (fun _ => ({ err := some .notExecuted } : QResult)) := by
        simp [ExecuteQuery, executeQueryLoop, hn, List.map_map]
      cases i with
      | zero =>
        rw [hshape]
        simp [firstFailingIdx, hfail, hn, hne]
      | succ k =>
        rw [hshape]
        have hk : k < rest.length := by simpa using hi
        simp [List.getD_cons_succ, List.getElem?_replicate, hk,
          firstFailingIdx, hfail]
    | none =>
      cases hk : s.kind with
      | dropSeries =>
        have hnot : isFailing s = false := by simp [isFailing, hn, hk]
        have hskip : isSkipped s = true := by simp [isSkipped, hk]
        have hshape : ExecuteQuery (s :: rest) =
            { err := some .notExecuted } :: ExecuteQuery rest := by
          simp [ExecuteQuery, executeQueryLoop, hn, hk]
        cases i with
        | zero =>
          rw [hshape]
          simp [hskip, hn]
        | succ k =>
          rw [hshape]
          have hklen : k < rest.length := by simpa using hi
          have hih := ih hfrest k hklen
          simp only [List.getD_cons_succ, firstFailingIdx, hnot,
            Bool.false_eq_true, if_neg, ite_false, exists_succ_shift]
          exact hih
      | dropContinuousQuery =>
        have hnot : isFailing s = false := by simp [isFailing, hn, hk]
        have hskip : isSkipped s = true := by simp [isSkipped, hk]
        have hshape : ExecuteQuery (s :: rest) =
            { err := some .notExecuted } :: ExecuteQuery rest := by
          simp [ExecuteQuery, executeQueryLoop, hn, hk]
        cases i with
        | zero =>
          rw [hshape]
          simp [hskip, hn]
        | succ k =>
          rw [hshape]
          have hklen : k < rest.length := by simpa using hi
          have hih := ih hfrest k hklen
          simp only [List.getD_cons_succ, firstFailingIdx, hnot,
            Bool.false_eq_true, if_neg, ite_false, exists_succ_shift]
          exact hih
      | other res =>
        cases hres : res with
        | none =>
          have hnot : isFailing s = false := by simp [isFailing, hn, hk, hres]
          have hshape : ExecuteQuery (s :: rest) =
              { err := none } :: ExecuteQuery rest := by
            simp [ExecuteQuery, executeQueryLoop, hn, hk, hres]
          cases i with
          | zero =>
            rw [hshape]
            simp [firstFailingIdx, hnot, isSkipped, hk]
          | succ k =>
            rw [hshape]
            have hklen : k < rest.length := by simpa using hi
            have hih := ih hfrest k hklen
            simp only [List.getD_cons_succ, firstFailingIdx, hnot,
              Bool.false_eq_true, if_neg, ite_false, exists_succ_shift]
            exact hih
        | some e =>
          have hfail : isFailing s = true := by simp [isFailing, hn, hk, hres]
          have hne : e ≠ .notExecuted := by
            intro hcontra
            apply hfs.2
            rw [hk, hres, hcontra]
          have hshape : ExecuteQuery (s :: rest) =
              { err := some e } ::
                rest.map (fun _ => ({ err := some .notExecuted } : QResult)) := by
            simp [ExecuteQuery, executeQueryLoop, hn, hk, hres, List.map_map]
          cases i with
          | zero =>
            rw [hshape]
            simp [firstFailingIdx, hfail, isSkipped, hk, hn, hne]
          | succ k =>
            rw [hshape]
            have hklen : k < rest.length := by simpa using hi
            simp [List.getD_cons_succ, List.getElem?_replicate, hklen,
              firstFailingIdx, hfail]

/-- Witness for the amended C7: skipped, failing, unreached. -/
theorem C7_witness :
    (((ExecuteQuery c7stmts).getD 2 { err := none }).err = some .notExecuted ↔
      ((∃ j, firstFailingIdx c7stmts = some j ∧ j < 2) ∨
        (isSkipped (c7stmts.getD 2 dfltStmt) = true ∧
          (c7stmts.getD 2 dfltStmt).normErr = none))) :=
  C7_not_executed_characterization c7stmts
    (by intro s hs; fin_cases hs <;> exact ⟨by decide, by decide⟩) 2 (by decide)

/-! ### C4 -/

theorem length_assignShardNodes (nodes : List DataNode) (replicaN : Nat) :
    ∀ (shards : List Shard) (idx : Nat),
      (assignShardNodes nodes replicaN shards idx).length = shards.length := by
  intro shards
  induction shards with
  | nil => intro idx; rfl
  | cons sh rest ih => intro idx; simp [assignShardNodes, ih]

theorem assignShardNodes_getD (nodes : List DataNode) (replicaN : Nat) :
    ∀ (shards : List Shard) (idx k : Nat), k < shards.length →
      (assignShardNodes nodes replicaN shards idx).getD k dfltShard =
        { shards.getD k dfltShard with
            dataNodeIDs := (shards.getD k dfltShard).dataNodeIDs ++
              (List.range replicaN).map (fun i =>
                (nodes.getD ((idx + k * replicaN + i) % nodes.length)
                  dfltDataNode).id) } := by
  intro shards
  induction shards with
  | nil => intro idx k hk; simp at hk
  | cons sh rest ih =>
    intro idx k hk
    cases k with
    | zero =>
      simp [assignShardNodes]
    | succ k2 =>
      have hk2 : k2 < rest.length := by simpa using hk
      have harith : (fun i =>
            (nodes.getD ((idx + replicaN + k2 * replicaN + i) % nodes.length)
              dfltDataNode).id) =
          (fun i =>
            (nodes.getD ((idx + (k2 + 1) * replicaN + i) % nodes.length)
              dfltDataNode).id) := by
        funext i
        have heq : idx + replicaN + k2 * replicaN + i =
            idx + (k2 + 1) * replicaN + i := by
          rw [Nat.succ_mul]
          omega
        rw [heq]
      simp only [assignShardNodes, List.getD_cons_succ]
      rw [ih (idx + replicaN) k2 hk2, harith]

theorem add_mod_inj (n a : Nat) :
    ∀ i j, i < n → j < n → (a + i) % n = (a + j) % n → i = j := by
  intro i j hi hj h
  have h2 : i ≡ j [MOD n] := Nat.ModEq.add_left_cancel' a h
  have h3 : i % n = j % n := h2
  rw [Nat.mod_eq_of_lt hi, Nat.mod_eq_of_lt hj] at h3
  exact h3

theorem getD_range_map {β : Type} (f : Nat → β) (n : Nat) (d : β)
    (k : Nat) (hk : k < n) : ((List.range n).map f).getD k d = f k := by
  rw [List.getD_eq_getElem?_getD, List.getElem?_map]
  simp [List.getElem?_range, hk]

theorem getD_map_node_id (nodes : List DataNode) (k : Nat) (d : DataNode) :
    (nodes.getD k d).id = (nodes.map DataNode.id).getD k d.id := by
  rw [List.getD_eq_getElem?_getD, List.getD_eq_getElem?_getD, List.getElem?_map]
  cases h : nodes[k]? <;> simp

theorem nodup_getD_inj {β : Type} (L : List β) (h : L.Nodup) (i j : Nat)
    (hi : i < L.length) (hj : j < L.length) (d : β)
    (heq : L.getD i d = L.getD j d) : i = j := by
  rw [List.getD_eq_getElem L d hi, List.getD_eq_getElem L d hj] at heq
  exact (List.Nodup.getElem_inj_iff h).mp heq

theorem replicaN_code_eq_min_max (rN n : Nat) (hn : 1 ≤ n) :
    (if rN = 0 then 1 else if rN > n then n else rN) = min (max rN 1) n := by
  rcases Nat.eq_zero_or_pos rN with h | h
  · subst h
    simp
    omega
  · split_ifs <;> omega

/-- Claim C4: an apply of create-shard-group-if-not-exists that creates a
new group with a non-empty node set appends to the policy exactly one
group with `floor(|nodes| / replicaN)` shards (where
`replicaN = min(max(policy.replicaN, 1), |nodes|)`), and each shard holds
exactly `replicaN` distinct node ids taken round-robin from the nodes
sorted by id ascending, starting at offset `msgIndex mod |nodes|`. -/
theorem C4_shard_placement (st : Server) (c : CreateShardGroupIfNotExistsCommand)
    (msgIndex gid sid : Nat) (db : Database) (rp : RetentionPolicy)
    (h1 : mfind st.databases c.database = some db)
    (h2 : mfind db.policies c.policy = some rp)
    (h3 : rp.shardGroupByTimestamp c.timestamp = none)
    (h4 : mvalues st.dataNodes ≠ [])
    (h5 : ((mvalues st.dataNodes).map DataNode.id).Nodup) :
    ∃ g : ShardGroup,
      (∃ db2 rp2,
        mfind (applyCreateShardGroupIfNotExists st c msgIndex gid sid none).1.databases
            c.database = some db2 ∧
        mfind db2.policies c.policy = some rp2 ∧
        rp2.shardGroups = rp.shardGroups ++ [g]) ∧
      (let nodes := sortDataNodes (mvalues st.dataNodes)
       let n := nodes.length
       let r := min (max rp.replicaN 1) n
       g.shards.length = n / r ∧
       ∀ k, k < g.shards.length →
         (g.shards.getD k dfltShard).dataNodeIDs =
           (List.range r).map (fun i =>
             (nodes.getD ((msgIndex % n + k * r + i) % n) dfltDataNode).id) ∧
         (g.shards.getD k dfltShard).dataNodeIDs.length = r ∧
         ((g.shards.getD k dfltShard).dataNodeIDs).Nodup) := by
  have hperm := List.perm_insertionSort (fun a b => a.id ≤ b.id) (mvalues st.dataNodes)
  have hlen : (sortDataNodes (mvalues st.dataNodes)).length =
      (mvalues st.dataNodes).length := hperm.length_eq
  have hn1 : 1 ≤ (sortDataNodes (mvalues st.dataNodes)).length := by
    rw [hlen]
    exact List.length_pos.mpr h4
  have hnodup : ((sortDataNodes (mvalues st.dataNodes)).map DataNode.id).Nodup :=
    ((hperm.map DataNode.id).symm).nodup h5
  have hguard : (rp.shardGroupByTimestamp c.timestamp).isSome = false := by
    rw [h3]
    rfl
  -- the code's replica count agrees with the claim's formula
  have hr : (if rp.replicaN = 0 then 1
      else if rp.replicaN > (sortDataNodes (mvalues st.dataNodes)).length then
        (sortDataNodes (mvalues st.dataNodes)).length
      else rp.replicaN) =
      min (max rp.replicaN 1) (sortDataNodes (mvalues st.dataNodes)).length :=
    replicaN_code_eq_min_max rp.replicaN _ hn1
  have hrle : min (max rp.replicaN 1) (sortDataNodes (mvalues st.dataNodes)).length ≤
      (sortDataNodes (mvalues st.dataNodes)).length := Nat.min_le_right _ _
  have hstate : (applyCreateShardGroupIfNotExists st c msgIndex gid sid none).1.databases =
      minsert st.databases c.database
        (Database.mk db.name db.defaultRetentionPolicy
          (minsert db.policies c.policy
            (RetentionPolicy.mk rp.name rp.duration rp.replicaN
              (rp.shardGroups ++ [createdShardGroup st c msgIndex gid sid rp])))
          db.measurements) := by
    simp only [applyCreateShardGroupIfNotExists, createdShardGroup, h1, h2,
      hguard, Bool.false_eq_true, if_false, ite_false]
  have hshards : (createdShardGroup st c msgIndex gid sid rp).shards =
      assignShardNodes (sortDataNodes (mvalues st.dataNodes))
        (min (max rp.replicaN 1) (sortDataNodes (mvalues st.dataNodes)).length)
        ((List.range ((sortDataNodes (mvalues st.dataNodes)).length /
            min (max rp.replicaN 1) (sortDataNodes (mvalues st.dataNodes)).length)).map
          (fun k => newShard (sid + k)))
        (msgIndex % (sortDataNodes (mvalues st.dataNodes)).length) := by
    simp only [createdShardGroup, hr]
  refine ⟨createdShardGroup st c msgIndex gid sid rp,
    ⟨Database.mk db.name db.defaultRetentionPolicy
        (minsert db.policies c.policy
          (RetentionPolicy.mk rp.name rp.duration rp.replicaN
            (rp.shardGroups ++ [createdShardGroup st c msgIndex gid sid rp])))
        db.measurements,
      RetentionPolicy.mk rp.name rp.duration rp.replicaN
        (rp.shardGroups ++ [createdShardGroup st c msgIndex gid sid rp]),
      ?_, mfind_minsert_self _ _ _, rfl⟩, ?_⟩
  · rw [hstate]
    exact mfind_minsert_self _ _ _
  · intro nodes n r
    rw [hshards]
    constructor
    · rw [length_assignShardNodes, List.length_map, List.length_range]
    · intro k hk
      rw [length_assignShardNodes, List.length_map, List.length_range] at hk
      have hklen : k <
          ((List.range (n / r)).map (fun k => newShard (sid + k))).length := by
        simpa using hk
      have hbase :
          ((List.range (n / r)).map (fun k => newShard (sid + k))).getD k dfltShard =
            newShard (sid + k) := by
        apply getD_range_map
        simpa using hklen
      rw [assignShardNodes_getD _ _ _ _ _ hklen, hbase]
      have hids : (newShard (sid + k)).dataNodeIDs ++
          (List.range r).map (fun i =>
            (nodes.getD ((msgIndex % n + k * r + i) % n) dfltDataNode).id) =
          (List.range r).map (fun i =>
            (nodes.getD ((msgIndex % n + k * r + i) % n) dfltDataNode).id) := by
        simp [newShard]
      refine ⟨hids, ?_, ?_⟩
      · rw [hids]
        simp
      · rw [hids]
        apply List.Nodup.map_on ?_ (List.nodup_range r)
        intro x hx y hy hxy
        have hxr : x < r := List.mem_range.mp hx
        have hyr : y < r := List.mem_range.mp hy
        have hxn : x < n := Nat.lt_of_lt_of_le hxr hrle
        have hyn : y < n := Nat.lt_of_lt_of_le hyr hrle
        have hxmod : (msgIndex % n + k * r + x) % n < n :=
          Nat.mod_lt _ (Nat.lt_of_lt_of_le Nat.zero_lt_one hn1)
        have hymod : (msgIndex % n + k * r + y) % n < n :=
          Nat.mod_lt _ (Nat.lt_of_lt_of_le Nat.zero_lt_one hn1)
        -- distinct positions in the sorted node list carry distinct ids
        have hpos : (msgIndex % n + k * r + x) % n = (msgIndex % n + k * r + y) % n := by
          apply nodup_getD_inj (nodes.map DataNode.id) hnodup _ _
            (by simpa using hxmod) (by simpa using hymod) dfltDataNode.id
          rw [← getD_map_node_id, ← getD_map_node_id]
          exact hxy
        exact add_mod_inj n (msgIndex % n + k * r) x y hxn hyn hpos

/-- Witness for C4: three nodes with ids 1,2,3 (map order scrambled),
replication factor 2, broker index 7 — one shard with the two distinct
nodes 2 and 3. -/
theorem C4_witness :
    ∃ g : ShardGroup,
      (∃ db2 rp2,
        mfind (applyCreateShardGroupIfNotExists c4st
            { database := "db", policy := "rp", timestamp := 1000 } 7 5 10 none).1.databases
            "db" = some db2 ∧
        mfind db2.policies "rp" = some rp2 ∧
        rp2.shardGroups = c4rp.shardGroups ++ [g]) ∧
      (let nodes := sortDataNodes (mvalues c4st.dataNodes)
       let n := nodes.length
       let r := min (max c4rp.replicaN 1) n
       g.shards.length = n / r ∧
       ∀ k, k < g.shards.length →
         (g.shards.getD k dfltShard).dataNodeIDs =
           (List.range r).map (fun i =>
             (nodes.getD ((7 % n + k * r + i) % n) dfltDataNode).id) ∧
         (g.shards.getD k dfltShard).dataNodeIDs.length = r ∧
         ((g.shards.getD k dfltShard).dataNodeIDs).Nodup) :=
  C4_shard_placement c4st { database := "db", policy := "rp", timestamp := 1000 }
    7 5 10 c4db c4rp (by decide) (by decide) (by decide) (by decide) (by decide)

/-! ### C5 -/

theorem timeTruncate_bounds (t d : Int) (hd : 0 < d) :
    timeTruncate t d ≤ t ∧ t < timeTruncate t d + d := by
  have h1 : 0 ≤ t % d := Int.emod_nonneg t (by omega)
  have h2 : t % d < d := Int.emod_lt_of_pos t hd
  unfold timeTruncate
  rw [if_neg (by omega)]
  omega

theorem timeTruncate_emod_zero (t d : Int) :
    (t - t % d) % d = 0 := by
  rw [Int.sub_emod, Int.emod_emod_of_dvd t (dvd_refl d)]
  simp

theorem timeTruncate_idem (t d : Int) :
    timeTruncate (timeTruncate t d) d = timeTruncate t d := by
  unfold timeTruncate
  split_ifs with hd
  · rfl
  · have := timeTruncate_emod_zero t d
    omega

/-- A timestamp inside an aligned window truncates to the window start. -/
theorem timeTruncate_eq_of_window (d s t : Int) (hs : s = timeTruncate s d)
    (h1 : s ≤ t) (h2 : t < s + d) (hd : 0 < d) : timeTruncate t d = s := by
  have hs0 : s % d = 0 := by
    unfold timeTruncate at hs
    rw [if_neg (by omega)] at hs
    omega
  have hts : (t - s) % d = t - s := Int.emod_eq_of_lt (by omega) (by omega)
  have hmod : t % d = t - s := by
    have hsplit : t = s + (t - s) := by ring
    calc t % d = (s + (t - s)) % d := by rw [← hsplit]
      _ = (s % d + (t - s) % d) % d := by rw [Int.add_emod]
      _ = ((t - s) % d) % d := by rw [hs0]; ring_nf
      _ = (t - s) % d := by rw [hts, hts]
      _ = t - s := hts
  unfold timeTruncate
  rw [if_neg (by omega), hmod]
  ring

theorem policyDisjoint_of_same_groups (p p2 : RetentionPolicy)
    (h : p2.shardGroups = p.shardGroups) (hp : policyDisjoint p) :
    policyDisjoint p2 := by
  intro t
  unfold atMostOneGroupContains
  rw [h]
  exact hp t

/-- Appending the group the create handler builds preserves disjointness
and alignment, provided the existing groups are aligned to the current
duration and none of them contains the requested timestamp. -/
theorem policy_append_group_preserves (rp : RetentionPolicy) (ts : Int)
    (hD : policyDisjoint rp) (hA : policyAligned rp)
    (hnone : rp.shardGroupByTimestamp ts = none) (g : ShardGroup)
    (hgs : g.startTime = timeTruncate ts rp.duration)
    (hge : g.endTime = g.startTime + rp.duration) :
    policyDisjoint (RetentionPolicy.mk rp.name rp.duration rp.replicaN
      (rp.shardGroups ++ [g])) ∧
    policyAligned (RetentionPolicy.mk rp.name rp.duration rp.replicaN
      (rp.shardGroups ++ [g])) := by
  constructor
  · intro t
    unfold atMostOneGroupContains
    simp only [List.filter_append, List.length_append]
    by_cases hgt : g.containsTimestamp t = true
    · have hempty :
          rp.shardGroups.filter (fun g0 => g0.containsTimestamp t) = [] := by
        apply List.filter_eq_nil_iff.mpr
        intro g0 hg0 hcont
        obtain ⟨hge0, hgs0⟩ := hA g0 hg0
        have hb : g.startTime ≤ t ∧ t < g.endTime := by
          simpa [ShardGroup.containsTimestamp] using hgt
        have hb0 : g0.startTime ≤ t ∧ t < g0.endTime := by
          simpa [ShardGroup.containsTimestamp] using hcont
        have hd : 0 < rp.duration := by
          have hb2 := hb.2
          rw [hge] at hb2
          have hb1 := hb.1
          omega
        have htr0 : timeTruncate t rp.duration = g0.startTime := by
          apply timeTruncate_eq_of_window _ _ _ hgs0 hb0.1 _ hd
          rw [← hge0]
          exact hb0.2
        have htr : timeTruncate t rp.duration = g.startTime := by
          apply timeTruncate_eq_of_window _ _ _ _ hb.1 _ hd
          · rw [hgs]
            exact (timeTruncate_idem ts rp.duration).symm
          · rw [← hge]
            exact hb.2
        have hstarteq : g0.startTime = g.startTime := by rw [← htr0, htr]
        have hts_b := timeTruncate_bounds ts rp.duration hd
        have hcont_ts : g0.containsTimestamp ts = true := by
          simp only [ShardGroup.containsTimestamp, decide_eq_true_eq]
          constructor
          · rw [hstarteq, hgs]
            exact hts_b.1
          · rw [hge0, hstarteq, hgs]
            exact hts_b.2
        have hno := List.find?_eq_none.mp hnone g0 hg0
        exact hno hcont_ts
      rw [hempty]
      simp [hgt]
    · have hg1 : List.filter (fun g0 => g0.containsTimestamp t) [g] = [] := by
        simp [hgt]
      rw [hg1]
      simpa using hD t
  · intro g0 hg0
    simp only [List.mem_append, List.mem_singleton] at hg0
    rcases hg0 with h | h
    · exact hA g0 h
    · subst h
      refine ⟨hge, ?_⟩
      rw [hgs]
      exact (timeTruncate_idem ts rp.duration).symm

/-- Claim C5, refuted: from a reachable-shape state whose group `[2,4)`
predates a duration update (duration now 4), the state satisfies the
disjointness invariant, yet applying create-shard-group for timestamp 1
adds the window `[0,4)` and the timestamp 3 is then contained in two
groups of the same policy. -/
theorem C5_counterexample : ¬ disjointnessPreservedByApply := by
  intro h
  have hD : serverDisjoint c5st := by
    intro p hp q hq
    simp only [c5st, List.mem_singleton] at hp
    subst hp
    simp only [c5db, List.mem_singleton] at hq
    subst hq
    intro t
    unfold atMostOneGroupContains
    simpa [c5rp] using
      List.length_filter_le (fun g => g.containsTimestamp t) c5rp.shardGroups
  have h2 := (h c5st hD).1 { database := "db", policy := "rp", timestamp := 1 }
    0 9 20 none
  have h3 := h2 ("db", c5db2) (by decide) ("rp", c5rp2) (by decide) 3
  exact absurd h3 (by unfold atMostOneGroupContains; decide)

/-- Claim C5 as amended: `applyUpdateRetentionPolicy` always preserves the
disjointness invariant (it does not touch any window); and
`applyCreateShardGroupIfNotExists` preserves it — together with window
alignment — provided every existing group is still aligned to its
policy's current duration, i.e. as long as no duration update has
detached the windows from the duration (the counterexample shows the
invariant is lost otherwise). -/
theorem C5_disjointness_preserved_when_aligned (st : Server)
    (c1 : CreateShardGroupIfNotExistsCommand) (mi gid sid : Nat)
    (pe1 : Option GoErr) (c2 : UpdateRetentionPolicyCommand)
    (pe2 : Option GoErr)
    (hD : serverDisjoint st) (hA : serverAligned st) :
    serverDisjoint (applyCreateShardGroupIfNotExists st c1 mi gid sid pe1).1 ∧
    serverAligned (applyCreateShardGroupIfNotExists st c1 mi gid sid pe1).1 ∧
    serverDisjoint (applyUpdateRetentionPolicy st c2 pe2).1 := by
  have hcreate :
      serverDisjoint (applyCreateShardGroupIfNotExists st c1 mi gid sid pe1).1 ∧
      serverAligned (applyCreateShardGroupIfNotExists st c1 mi gid sid pe1).1 := by
    cases hdb : mfind st.databases c1.database with
    | none =>
      have hres : (applyCreateShardGroupIfNotExists st c1 mi gid sid pe1).1 = st := by
        simp [applyCreateShardGroupIfNotExists, hdb]
      rw [hres]
      exact ⟨hD, hA⟩
    | some db =>
      cases hrp : mfind db.policies c1.policy with
      | none =>
        have hres : (applyCreateShardGroupIfNotExists st c1 mi gid sid pe1).1 = st := by
          simp [applyCreateShardGroupIfNotExists, hdb, hrp]
        rw [hres]
        exact ⟨hD, hA⟩
      | some rp =>
        cases hts : rp.shardGroupByTimestamp c1.timestamp with
        | some g0 =>
          have hres : (applyCreateShardGroupIfNotExists st c1 mi gid sid pe1).1 = st := by
            simp [applyCreateShardGroupIfNotExists, hdb, hrp, hts]
          rw [hres]
          exact ⟨hD, hA⟩
        | none =>
          have hguard : (rp.shardGroupByTimestamp c1.timestamp).isSome = false := by
            rw [hts]
            rfl
          have hdbs :
              (applyCreateShardGroupIfNotExists st c1 mi gid sid pe1).1.databases =
              minsert st.databases c1.database
                (Database.mk db.name db.defaultRetentionPolicy
                  (minsert db.policies c1.policy
                    (RetentionPolicy.mk rp.name rp.duration rp.replicaN
                      (rp.shardGroups ++ [createdShardGroup st c1 mi gid sid rp])))
                  db.measurements) := by
            cases pe1 <;>
              simp only [applyCreateShardGroupIfNotExists, createdShardGroup,
                hdb, hrp, hguard, Bool.false_eq_true, if_false, ite_false]
          have hmemdb : (c1.database, db) ∈ st.databases := mfind_mem hdb
          have hmemrp : (c1.policy, rp) ∈ db.policies := mfind_mem hrp
          have hDrp : policyDisjoint rp := hD _ hmemdb _ hmemrp
          have hArp : policyAligned rp := hA _ hmemdb _ hmemrp
          have hcore := policy_append_group_preserves rp c1.timestamp hDrp hArp
            hts (createdShardGroup st c1 mi gid sid rp) rfl rfl
          constructor
          · intro p hp q hq
            rw [hdbs] at hp
            rcases mem_minsert hp with hnew | hold
            · subst hnew
              rcases mem_minsert hq with hqnew | hqold
              · subst hqnew
                exact hcore.1
              · exact hD _ hmemdb _ hqold
            · exact hD _ hold _ hq
          · intro p hp q hq
            rw [hdbs] at hp
            rcases mem_minsert hp with hnew | hold
            · subst hnew
              rcases mem_minsert hq with hqnew | hqold
              · subst hqnew
                exact hcore.2
              · exact hA _ hmemdb _ hqold
            · exact hA _ hold _ hq
  have hupdate : serverDisjoint (applyUpdateRetentionPolicy st c2 pe2).1 := by
    cases hdb : mfind st.databases c2.database with
    | none =>
      have hres : (applyUpdateRetentionPolicy st c2 pe2).1 = st := by
        simp [applyUpdateRetentionPolicy, hdb]
      rw [hres]
      exact hD
    | some db =>
      by_cases hname : c2.name = ""
      · have hres : (applyUpdateRetentionPolicy st c2 pe2).1 = st := by
          simp [applyUpdateRetentionPolicy, hdb, hname]
        rw [hres]
        exact hD
      · cases hrp : mfind db.policies c2.name with
        | none =>
          have hres : (applyUpdateRetentionPolicy st c2 pe2).1 = st := by
            simp [applyUpdateRetentionPolicy, hdb, hname, hrp]
          rw [hres]
          exact hD
        | some p =>
          have hmemdb : (c2.database, db) ∈ st.databases := mfind_mem hdb
          have hmemp : (c2.name, p) ∈ db.policies := mfind_mem hrp
          have hDp : policyDisjoint p := hD _ hmemdb _ hmemp
          -- the updated policy keeps the very same group list
          have hp2 : policyDisjoint
              (RetentionPolicy.mk ((c2.policy.name).getD p.name)
                ((c2.policy.duration).getD p.duration)
                ((c2.policy.replicaN).getD p.replicaN) p.shardGroups) :=
            policyDisjoint_of_same_groups p _ rfl hDp
          cases hoptname : c2.policy.name with
          | none =>
            have hdbs : (applyUpdateRetentionPolicy st c2 pe2).1.databases =
                minsert st.databases c2.database
                  (Database.mk db.name db.defaultRetentionPolicy
                    (minsert db.policies c2.name
                      (RetentionPolicy.mk ((c2.policy.name).getD p.name)
                        ((c2.policy.duration).getD p.duration)
                        ((c2.policy.replicaN).getD p.replicaN) p.shardGroups))
                    db.measurements) := by
              simp only [applyUpdateRetentionPolicy, hdb, hname, hrp, hoptname,
                if_neg, ite_false]
            intro pr hp q hq
            rw [hdbs] at hp
            rcases mem_minsert hp with hnew | hold
            · subst hnew
              rcases mem_minsert hq with hqnew | hqold
              · subst hqnew
                exact hp2
              · exact hD _ hmemdb _ hqold
            · exact hD _ hold _ hq
          | some nm =>
            have hdbs : (applyUpdateRetentionPolicy st c2 pe2).1.databases =
                minsert st.databases c2.database
                  (Database.mk db.name db.defaultRetentionPolicy
                    (minsert (merase db.policies p.name)
                      ((c2.policy.name).getD p.name)
                      (RetentionPolicy.mk ((c2.policy.name).getD p.name)
                        ((c2.policy.duration).getD p.duration)
                        ((c2.policy.replicaN).getD p.replicaN) p.shardGroups))
                    db.measurements) := by
              simp only [applyUpdateRetentionPolicy, hdb, hname, hrp, hoptname,
                if_neg, ite_false, Option.getD_some]
            intro pr hp q hq
            rw [hdbs] at hp
            rcases mem_minsert hp with hnew | hold
            · subst hnew
              rcases mem_minsert hq with hqnew | hqold
              · subst hqnew
                exact hp2
              · exact hD _ hmemdb _ (mem_merase hqold)
            · exact hD _ hold _ hq
  exact ⟨hcreate.1, hcreate.2, hupdate⟩

/-- Witness for the amended C5: an aligned, disjoint state with one empty
policy; a create for timestamp 2 and a duration update to 8. -/
theorem C5_witness :
    serverDisjoint (applyCreateShardGroupIfNotExists c5wst
      { database := "db", policy := "rp", timestamp := 2 } 3 11 21 none).1 ∧
    serverAligned (applyCreateShardGroupIfNotExists c5wst
      { database := "db", policy := "rp", timestamp := 2 } 3 11 21 none).1 ∧
    serverDisjoint (applyUpdateRetentionPolicy c5wst
      { database := "db", name := "rp",
        policy := { name := none, duration := some 8, replicaN := none } }
      none).1 :=
  C5_disjointness_preserved_when_aligned c5wst
    { database := "db", policy := "rp", timestamp := 2 } 3 11 21 none
    { database := "db", name := "rp",
      policy := { name := none, duration := some 8, replicaN := none } } none
    (by
      intro p hp q hq
      simp only [c5wst, List.mem_singleton] at hp
      subst hp
      simp only [List.mem_singleton] at hq
      subst hq
      intro t
      unfold atMostOneGroupContains
      simp [c5wrp])
    (by
      intro p hp q hq
      simp only [c5wst, List.mem_singleton] at hp
      subst hp
      simp only [List.mem_singleton] at hq
      subst hq
      intro g hg
      simp [c5wrp] at hg)

end Influx
